import Mathlib

/-!
Verification of the nc-broadcast shared broadcast buffer
(`src/main.rs`).

The program keeps a single growing `Vec<u8>` behind an `RwLock`, an
`AtomicUsize` named `complete` that counts the producers still active
(the stream is complete exactly when it is zero), and a `Notify`
readiness signal (a `Condvar` paired with an otherwise unused unit
`Mutex`).  A `BroadcastPipe` handle bundles `Arc`s to those three
shared objects with a private cursor `read_pos`.

This file shallowly embeds those pieces: bytes are natural numbers, the
shared `Vec<u8>` is a `List Nat`, and each relevant Rust function is
mirrored by an executable Lean function.  Two small labelled transition
systems model the scheduling-dependent parts: producer registration in
`main` (`RegReachable`) and the check-then-wait race between a reading
consumer and the readiness signal (`WakeReachable`).
-/

/-- Result of one iteration of the loop in `BroadcastPipe::read`
(`src/main.rs` lines 65-77): either the iteration returns `Ok(count)`
together with the copied bytes and the updated cursor, or it drops the
read lock and goes to wait on the readiness signal. -/
inductive ReadResult where
  | chunk (data : List Nat) (newPos : Nat)
  | wouldBlock
  deriving Repr, DecidableEq

/-- One iteration of the loop body of `BroadcastPipe::read`
(`src/main.rs` lines 66-76) against one snapshot of the shared state.
`internal_buffer.len() - self.read_pos` is a `usize` subtraction and
`internal_buffer[read_pos..read_pos + count]` is a bounds-checked
slice, so an iteration started with `read_pos` beyond the buffer length
panics; that is modelled by `none`. -/
def readIter (buffer : List Nat) (complete read_pos want : Nat) :
    Option ReadResult :=
  if buffer.length < read_pos then
    none
  else
    let count := min want (buffer.length - read_pos)
    if count = 0 ∧ 0 < complete then
      some ReadResult.wouldBlock
    else
      some (ReadResult.chunk ((buffer.drop read_pos).take count)
        (read_pos + count))

/-- Outcome of a whole call to `BroadcastPipe::read`. -/
inductive LoopResult where
  | returned (data : List Nat) (newPos : Nat)
  | stillBlocked
  | panicked
  deriving Repr, DecidableEq

/-- The retry loop of `BroadcastPipe::read` (`src/main.rs` lines 65-77).
Each iteration re-reads the shared state, which other threads may have
changed while this reader was waiting, so the loop is driven by the
list of successive `(buffer, complete)` snapshots the reader observes;
exhausting the list means the reader is still blocked in
`Notify::wait`. -/
def readLoop : List (List Nat × Nat) → Nat → Nat → LoopResult
  | [], _, _ => LoopResult.stillBlocked
  | (buffer, complete) :: rest, read_pos, want =>
    match readIter buffer complete read_pos want with
    | none => LoopResult.panicked
    | some ReadResult.wouldBlock => readLoop rest read_pos want
    | some (ReadResult.chunk data p) => LoopResult.returned data p

/-- `BroadcastPipe::read` (`src/main.rs` lines 61-78): the
`buf.len() == 0` early return at lines 62-64 precedes the loop and
touches neither the lock, the signal, nor the cursor. -/
def readCall (snapshots : List (List Nat × Nat)) (read_pos want : Nat) :
    LoopResult :=
  if want = 0 then LoopResult.returned [] read_pos
  else readLoop snapshots read_pos want

/-- Result of `<BroadcastPipe as Write>::write` (`src/main.rs` lines
49-55): the new buffer contents, the returned byte count, and whether
`notify_all` was called on the readiness signal. -/
structure AppendResult where
  buffer : List Nat
  returned : Nat
  notified : Bool
  deriving Repr, DecidableEq

/-- `<BroadcastPipe as Write>::write` (`src/main.rs` lines 49-55):
`Vec<u8>`'s `Write` impl appends the whole slice and returns its
length; `notify_all` fires exactly when the returned count is
positive. -/
def write (buffer data : List Nat) : AppendResult :=
  let res := data.length
  { buffer := buffer ++ data, returned := res, notified := decide (0 < res) }

/-- `<BroadcastPipe as Write>::flush` (`src/main.rs` lines 56-58):
`Vec<u8>`'s `flush` leaves the contents untouched. -/
def flush (buffer : List Nat) : List Nat := buffer

/-- A `BroadcastPipe` handle (`src/main.rs` lines 22-27).  The three
`Arc` fields are modelled by the identity of the shared objects they
point to; `read_pos` is the handle's private cursor. -/
structure BroadcastPipe where
  bufferId : Nat
  readyId : Nat
  completeId : Nat
  read_pos : Nat
  deriving Repr, DecidableEq

/-- `<BroadcastPipe as Clone>::clone` (`src/main.rs` lines 38-47): the
three `Arc`s are cloned, so the new handle points at the same shared
buffer, signal and counter, while `read_pos` restarts at 0. -/
def clonePipe (p : BroadcastPipe) : BroadcastPipe :=
  { bufferId := p.bufferId, readyId := p.readyId,
    completeId := p.completeId, read_pos := 0 }

/-- The consumer loop (`std::io::copy` out of a cloned handle,
`src/main.rs` line 154) run against a buffer all of whose producers
have finished (`complete = 0`), so no iteration blocks: repeatedly read
and accumulate until a read returns zero bytes.  `fuel` bounds the
number of iterations; `want` is the destination chunk capacity. -/
def copyLoop : Nat → List Nat → Nat → Nat → List Nat
  | 0, _, _, _ => []
  | fuel + 1, buffer, cursor, want =>
    match readIter buffer 0 cursor want with
    | some (ReadResult.chunk data newPos) =>
      if data.length = 0 then [] else data ++ copyLoop fuel buffer newPos want
    | _ => []

/-- A handle in the whole-system model: its private cursor together
with the concatenation of all byte chunks its reads have returned so
far.  The `log` field instruments the trace; it is not program
state. -/
structure Handle where
  read_pos : Nat
  log : List Nat
  deriving Repr, DecidableEq

/-- Shared state of the program plus every live handle. -/
structure SysState where
  buffer : List Nat
  complete : Nat
  handles : List Handle
  deriving Repr, DecidableEq

/-- The operations threads perform on the shared buffer: append and
flush by producers, `fetch_add`/`fetch_sub` on the `complete` counter,
cloning an existing handle for a new consumer, and one loop iteration
of `BroadcastPipe::read` by the consumer owning handle `i`. -/
inductive Op where
  | append (data : List Nat)
  | flushOp
  | register
  | finish
  | cloneH (i : Nat)
  | readH (i : Nat) (want : Nat)
  deriving Repr, DecidableEq

/-- Effect of one operation on the system state.  A read that decides
to wait (`wouldBlock`) changes nothing; a read that returns bytes
advances the owning handle's cursor by the returned count
(`self.read_pos += count`, `src/main.rs` line 75) and appends the
returned bytes to that handle's log. -/
def stepOp (s : SysState) (op : Op) : SysState :=
  match op with
  | Op.append data => { s with buffer := (write s.buffer data).buffer }
  | Op.flushOp => { s with buffer := flush s.buffer }
  | Op.register => { s with complete := s.complete + 1 }
  | Op.finish => { s with complete := s.complete - 1 }
  | Op.cloneH i =>
    match s.handles[i]? with
    | some _ => { s with handles := s.handles ++ [⟨0, []⟩] }
    | none => s
  | Op.readH i want =>
    match s.handles[i]? with
    | some h =>
      if want = 0 then s
      else
        match readIter s.buffer s.complete h.read_pos want with
        | some (ReadResult.chunk data newPos) =>
          { s with handles := s.handles.set i ⟨newPos, h.log ++ data⟩ }
        | _ => s
    | none => s

/-- Initial state: empty buffer, counter 0 (as built by
`BroadcastPipe::new`, `src/main.rs` lines 29-36), one canonical handle
with cursor 0. -/
def initState : SysState := { buffer := [], complete := 0, handles := [⟨0, []⟩] }

/-- Run a sequence of operations from the initial state. -/
def runOps (ops : List Op) : SysState := List.foldl stepOp initState ops

/-- Per-handle invariant: the cursor never passes the end of the
buffer, and the bytes delivered to the handle so far are exactly the
prefix of the buffer below the cursor. -/
def HandleInv (buffer : List Nat) (h : Handle) : Prop :=
  h.read_pos ≤ buffer.length ∧ h.log = buffer.take h.read_pos

/-- System invariant: every live handle satisfies `HandleInv`. -/
def SysInv (s : SysState) : Prop := ∀ h ∈ s.handles, HandleInv s.buffer h

/-- State of the producer-registration phase of `main` (`src/main.rs`
lines 94-158).  `regs` counts the `fetch_add(1, SeqCst)` calls the main
thread has performed so far on the `complete` counter (one for the
stdin producer at line 95, then one per `--input` file at line 110);
`consumersSpawned` records that the main thread has passed the
registration loop and reached the tee/accept section (lines 143-158);
`stdinDone` records that the stdin producer thread has performed its
`fetch_sub(1, SeqCst)` (line 99). -/
structure RegState where
  regs : Nat
  consumersSpawned : Bool
  stdinDone : Bool
  deriving Repr, DecidableEq

/-- Reachable states of the registration phase for a configuration with
`numFiles` file inputs.  The stdin producer thread is spawned
immediately after the first registration (line 97), so it may finish at
any moment once `1 ≤ regs`; file producer threads never decrement the
counter (their tail loop at lines 137-140 is infinite); consumers (the
tee thread and the accept loop) are spawned by the main thread only
after every registration has happened. -/
inductive RegReachable (numFiles : Nat) : RegState → Prop where
  | init : RegReachable numFiles ⟨0, false, false⟩
  | mainRegister (s : RegState) : RegReachable numFiles s →
      s.regs < numFiles + 1 → s.consumersSpawned = false →
      RegReachable numFiles ⟨s.regs + 1, false, s.stdinDone⟩
  | mainSpawnConsumers (s : RegState) : RegReachable numFiles s →
      s.regs = numFiles + 1 →
      RegReachable numFiles ⟨s.regs, true, s.stdinDone⟩
  | stdinFinish (s : RegState) : RegReachable numFiles s →
      1 ≤ s.regs → s.stdinDone = false →
      RegReachable numFiles ⟨s.regs, s.consumersSpawned, true⟩

/-- Value of the `complete` counter (`src/main.rs` line 26) in a
registration state: registrations so far minus the stdin producer's
decrement. -/
def activeProducers (s : RegState) : Nat :=
  s.regs - (if s.stdinDone then 1 else 0)

/-- Program counter of a consumer thread inside `BroadcastPipe::read`,
for the wake-race model. -/
inductive CPC where
  | idle
  | checked
  | waiting
  | gotData
  | sawEof
  deriving Repr, DecidableEq

/-- State of the wake-race model: buffer length, `complete` counter,
consumer position, and the producer's program counter (0 = about to
append two bytes, 1 = about to `fetch_sub` and notify, 2 = exited). -/
structure WakeState where
  len : Nat
  active : Nat
  consumer : CPC
  prodPC : Nat
  deriving Repr, DecidableEq

/-- Effect of `Notify::notify_all` (`src/main.rs` lines 17-19) on the
consumer: a thread blocked inside `Condvar::wait` is released and
re-runs the loop; a thread that has not yet entered `wait` is
unaffected, since the `Condvar` holds no state and the producers do not
touch the `Mutex` paired with it. -/
def wakeNotify (c : CPC) : CPC := if c = CPC.waiting then CPC.idle else c

/-- Interleaving semantics for one consumer with cursor 0 and one
producer that appends two bytes and then marks itself done, as the
stdin producer thread does (`src/main.rs` lines 97-101).  The consumer
transitions follow `BroadcastPipe::read` (lines 65-77): from `idle` it
evaluates the state check under the read lock; seeing no data while
producers remain, it drops the lock (`checked`) and then enters
`Notify::wait` (`waiting`), which only a subsequent `notify_all` can
release. -/
def wakeSuccs (s : WakeState) : List WakeState :=
  (match s.consumer with
    | CPC.idle =>
      if s.len = 0 then
        if 0 < s.active then [{ s with consumer := CPC.checked }]
        else [{ s with consumer := CPC.sawEof }]
      else [{ s with consumer := CPC.gotData }]
    | CPC.checked => [{ s with consumer := CPC.waiting }]
    | _ => [])
  ++
  (match s.prodPC with
    | 0 =>
      [{ s with len := s.len + 2, prodPC := 1, consumer := wakeNotify s.consumer }]
    | 1 =>
      [{ s with active := s.active - 1, prodPC := 2, consumer := wakeNotify s.consumer }]
    | _ => [])

/-- Reachable states of the wake-race model, starting from an empty
buffer, one registered producer, the consumer about to run its state
check, and the producer about to append. -/
inductive WakeReachable : WakeState → Prop where
  | init : WakeReachable ⟨0, 1, CPC.idle, 0⟩
  | step (s t : WakeState) : WakeReachable s → t ∈ wakeSuccs s →
      WakeReachable t

/-- Helper: indexing a list element yields a member. -/
theorem handles_getElem_mem {l : List Handle} {i : Nat} {h : Handle}
    (hix : l[i]? = some h) : h ∈ l :=
  List.getElem?_mem hix

/-- Helper: a loop iteration of `read` started in bounds that returns a
chunk keeps the cursor in bounds and extends the delivered prefix of
the buffer. -/
theorem readIter_chunk_inv (buffer : List Nat) (complete read_pos want : Nat)
    (data : List Nat) (newPos : Nat) (hpos : read_pos ≤ buffer.length)
    (hri : readIter buffer complete read_pos want =
      some (ReadResult.chunk data newPos)) :
    newPos ≤ buffer.length ∧
      buffer.take read_pos ++ data = buffer.take newPos := by
  unfold readIter at hri
  rw [if_neg (Nat.not_lt.mpr hpos)] at hri
  by_cases hc : min want (buffer.length - read_pos) = 0 ∧ 0 < complete
  · rw [if_pos hc] at hri
    simp at hri
  · rw [if_neg hc] at hri
    injection hri with hri
    injection hri with hdata hnew
    subst hdata
    subst hnew
    have hcle : min want (buffer.length - read_pos) ≤ buffer.length - read_pos :=
      Nat.min_le_right _ _
    refine ⟨by omega, ?_⟩
    exact (List.take_add buffer read_pos (min want (buffer.length - read_pos))).symm

/-- Helper: appending to the buffer preserves the per-handle invariant. -/
theorem handleInv_append (buffer data : List Nat) (h : Handle)
    (hh : HandleInv buffer h) : HandleInv (buffer ++ data) h := by
  obtain ⟨h1, h2⟩ := hh
  refine ⟨by simp; omega, ?_⟩
  rw [List.take_append_of_le_length h1]
  exact h2

/-- Helper: every operation preserves the system invariant. -/
theorem sysInv_step (s : SysState) (op : Op) (hs : SysInv s) :
    SysInv (stepOp s op) := by
  cases op with
  | append data =>
    intro h hh
    exact handleInv_append s.buffer data h (hs h hh)
  | flushOp =>
    intro h hh
    exact hs h hh
  | register =>
    intro h hh
    exact hs h hh
  | finish =>
    intro h hh
    exact hs h hh
  | cloneH i =>
    intro h hh
    rcases hix : s.handles[i]? with _ | h0 <;>
      simp only [stepOp, hix] at hh ⊢
    · exact hs h hh
    · rcases List.mem_append.mp hh with hm | hm
      · exact hs h hm
      · have heq : h = ⟨0, []⟩ := by simpa using hm
        subst heq
        exact ⟨Nat.zero_le _, rfl⟩
  | readH i want =>
    intro h hh
    rcases hix : s.handles[i]? with _ | h0 <;>
      simp only [stepOp, hix] at hh ⊢
    · exact hs h hh
    · by_cases hw : want = 0
      · rw [if_pos hw] at hh ⊢
        exact hs h hh
      · rw [if_neg hw] at hh ⊢
        revert hh
        rcases hri : readIter s.buffer s.complete h0.read_pos want with _ | r
        · intro hh
          exact hs h hh
        · cases r with
          | wouldBlock =>
            intro hh
            exact hs h hh
          | chunk data newPos =>
            intro hh
            have h0mem : h0 ∈ s.handles := handles_getElem_mem hix
            obtain ⟨hp, hl⟩ := hs h0 h0mem
            have hh' : h ∈ s.handles.set i ⟨newPos, h0.log ++ data⟩ := hh
            show HandleInv s.buffer h
            rcases List.mem_or_eq_of_mem_set hh' with hm | rfl
            · exact hs h hm
            · obtain ⟨hle, htake⟩ :=
                readIter_chunk_inv s.buffer s.complete h0.read_pos want data newPos hp hri
              refine ⟨hle, ?_⟩
              show h0.log ++ data = s.buffer.take newPos
              rw [hl]
              exact htake

/-- Helper: the system invariant holds after any run from the initial
state. -/
theorem sysInv_run (ops : List Op) : SysInv (runOps ops) := by
  have hgen : ∀ (l : List Op) (s : SysState), SysInv s →
      SysInv (List.foldl stepOp s l) := by
    intro l
    induction l with
    | nil =>
      intro s hs
      exact hs
    | cons op rest ih =>
      intro s hs
      exact ih (stepOp s op) (sysInv_step s op hs)
  refine hgen ops initState ?_
  intro h hh
  have heq : h = ⟨0, []⟩ := by simpa [initState] using hh
  subst heq
  exact ⟨Nat.zero_le _, rfl⟩

/-- Helper: against a completed buffer (`complete = 0`) a loop iteration
started in bounds always returns a chunk and never waits. -/
theorem readIter_complete_eq (buffer : List Nat) (cursor want : Nat)
    (h : cursor ≤ buffer.length) :
    readIter buffer 0 cursor want =
      some (ReadResult.chunk
        ((buffer.drop cursor).take (min want (buffer.length - cursor)))
        (cursor + min want (buffer.length - cursor))) := by
  unfold readIter
  rw [if_neg (Nat.not_lt.mpr h), if_neg (by simp)]

/-- Helper: on a completed buffer, the consumer copy loop delivers the
whole remainder of the buffer past the starting cursor, given enough
iterations. -/
theorem copyLoop_drain : ∀ (fuel : Nat) (buffer : List Nat) (cursor want : Nat),
    cursor ≤ buffer.length → 0 < want → buffer.length - cursor < fuel →
    copyLoop fuel buffer cursor want = buffer.drop cursor := by
  intro fuel
  induction fuel with
  | zero =>
    intro buffer cursor want h1 h2 h3
    omega
  | succ fuel ih =>
    intro buffer cursor want h1 h2 h3
    have hri := readIter_complete_eq buffer cursor want h1
    simp only [copyLoop, hri]
    have hlen : ((buffer.drop cursor).take (min want (buffer.length - cursor))).length
        = min want (buffer.length - cursor) := by
      rw [List.length_take, List.length_drop]
      exact Nat.min_eq_left (Nat.min_le_right _ _)
    rw [hlen]
    by_cases hend : buffer.length ≤ cursor
    · have hc0 : min want (buffer.length - cursor) = 0 := by
        rw [Nat.sub_eq_zero_of_le hend]
        exact Nat.min_zero want
      rw [if_pos hc0]
      exact (List.drop_eq_nil_of_le hend).symm
    · push_neg at hend
      have hcle : min want (buffer.length - cursor) ≤ buffer.length - cursor :=
        Nat.min_le_right _ _
      have hcpos : 0 < min want (buffer.length - cursor) := lt_min h2 (by omega)
      rw [if_neg (by omega)]
      rw [ih buffer (cursor + min want (buffer.length - cursor)) want
        (by omega) h2 (by omega)]
      rw [← List.drop_drop, List.take_append_drop]

/-- Helper: a reader that has drained the buffer gets end-of-stream
exactly when the active-producer counter is zero. -/
theorem readIter_drained_eof_iff (buffer : List Nat) (complete want : Nat) :
    (readIter buffer complete buffer.length want =
        some (ReadResult.chunk [] buffer.length)) ↔ complete = 0 := by
  unfold readIter
  rw [if_neg (lt_irrefl _), Nat.sub_self, Nat.min_zero]
  by_cases hc : complete = 0
  · subst hc
    rw [if_neg (by simp)]
    simp
  · rw [if_pos ⟨rfl, Nat.pos_of_ne_zero hc⟩]
    simp [hc]

/-- Helper: the registration count never exceeds one more than the
number of file inputs. -/
theorem regReachable_regs_le (numFiles : Nat) (s : RegState)
    (h : RegReachable numFiles s) : s.regs ≤ numFiles + 1 := by
  induction h with
  | init => exact Nat.zero_le _
  | mainRegister s hr hlt hcs ih => exact hlt
  | mainSpawnConsumers s hr heq ih => exact ih
  | stdinFinish s hr h1 h2 ih => exact ih

/-- Helper: once the main thread has spawned consumers, every
registration has happened. -/
theorem regReachable_spawned_regs (numFiles : Nat) (s : RegState)
    (h : RegReachable numFiles s) (hc : s.consumersSpawned = true) :
    s.regs = numFiles + 1 := by
  induction h with
  | init => cases hc
  | mainRegister s hr hlt hcs ih => cases hc
  | mainSpawnConsumers s hr heq ih => exact heq
  | stdinFinish s hr h1 h2 ih => exact ih hc

/-- Claim C1: for every handle, the concatenation of the byte chunks
returned by its successive reads (its `log`) is, after every sequence
of operations, exactly the prefix `bytes[0..cursor]` of the shared
buffer, so a consumer that keeps reading receives the appended bytes in
the exact order they were appended. -/
theorem C1_reads_deliver_exact_prefix : ∀ (ops : List Op) (h : Handle),
    h ∈ (runOps ops).handles →
    h.log = (runOps ops).buffer.take h.read_pos :=
  fun ops h hh => (sysInv_run ops h hh).2

theorem C1_witness :
    (⟨3, [1, 2, 3]⟩ : Handle) ∈
      (runOps [Op.append [1, 2], Op.readH 0 5, Op.append [3],
        Op.cloneH 0, Op.readH 1 10]).handles ∧
    ([1, 2, 3] : List Nat) =
      (runOps [Op.append [1, 2], Op.readH 0 5, Op.append [3],
        Op.cloneH 0, Op.readH 1 10]).buffer.take 3 :=
  ⟨by decide,
    C1_reads_deliver_exact_prefix
      [Op.append [1, 2], Op.readH 0 5, Op.append [3], Op.cloneH 0, Op.readH 1 10]
      ⟨3, [1, 2, 3]⟩ (by decide)⟩

/-- Claim C2: for a handle with `cursor ≤ len(bytes)` asking for
`want > 0` bytes while `available = len(bytes) - cursor > 0`, the read
iteration returns exactly `min want available` bytes, namely
`bytes[cursor..cursor + min want available]`, and reports the cursor
advanced by exactly that count. -/
theorem C2_read_returns_min_want_available :
    ∀ (buffer : List Nat) (complete read_pos want : Nat),
    read_pos ≤ buffer.length → 0 < want → 0 < buffer.length - read_pos →
    readIter buffer complete read_pos want =
      some (ReadResult.chunk
        ((buffer.drop read_pos).take (min want (buffer.length - read_pos)))
        (read_pos + min want (buffer.length - read_pos))) ∧
    ((buffer.drop read_pos).take (min want (buffer.length - read_pos))).length =
      min want (buffer.length - read_pos) := by
  intro buffer complete read_pos want h1 h2 h3
  have hmin : 0 < min want (buffer.length - read_pos) := lt_min h2 h3
  constructor
  · unfold readIter
    rw [if_neg (Nat.not_lt.mpr h1),
      if_neg (fun hcon => absurd hcon.1 (Nat.pos_iff_ne_zero.mp hmin))]
  · rw [List.length_take, List.length_drop]
    exact Nat.min_eq_left (Nat.min_le_right _ _)

theorem C2_witness :
    1 ≤ ([1, 2, 3] : List Nat).length ∧ 0 < 2 ∧
    0 < ([1, 2, 3] : List Nat).length - 1 ∧
    (readIter [1, 2, 3] 5 1 2 = some (ReadResult.chunk [2, 3] 3) ∧
      ([2, 3] : List Nat).length = 2) :=
  ⟨by decide, by decide, by decide,
    C2_read_returns_min_want_available [1, 2, 3] 5 1 2
      (by decide) (by decide) (by decide)⟩

/-- Claim C3: a handle that has drained the buffer
(`available = len - cursor = 0`) and asks for `want > 0` bytes either
waits and retries or terminates: with a positive active-producer count
(`complete + 1`) the iteration yields `wouldBlock` and the retry loop
goes on to the next observed snapshot, while with a zero count the
iteration returns zero bytes and the whole call ends with the terminal
end-of-stream result without consuming further snapshots. -/
theorem C3_drained_waits_or_eof :
    ∀ (buffer : List Nat) (read_pos want complete : Nat)
      (rest : List (List Nat × Nat)),
    read_pos ≤ buffer.length → 0 < want → buffer.length - read_pos = 0 →
    (readIter buffer (complete + 1) read_pos want = some ReadResult.wouldBlock ∧
      readLoop ((buffer, complete + 1) :: rest) read_pos want =
        readLoop rest read_pos want) ∧
    (readIter buffer 0 read_pos want = some (ReadResult.chunk [] read_pos) ∧
      readCall ((buffer, 0) :: rest) read_pos want =
        LoopResult.returned [] read_pos) := by
  intro buffer read_pos want complete rest h1 h2 h3
  have hblock : readIter buffer (complete + 1) read_pos want =
      some ReadResult.wouldBlock := by
    unfold readIter
    rw [if_neg (Nat.not_lt.mpr h1), if_pos ⟨by omega, Nat.succ_pos complete⟩]
  have heof : readIter buffer 0 read_pos want =
      some (ReadResult.chunk [] read_pos) := by
    unfold readIter
    rw [if_neg (Nat.not_lt.mpr h1), if_neg (by simp)]
    rw [h3, Nat.min_zero]
    simp
  refine ⟨⟨hblock, ?_⟩, heof, ?_⟩
  · simp only [readLoop, hblock]
  · unfold readCall
    rw [if_neg (Nat.pos_iff_ne_zero.mp h2)]
    simp only [readLoop, heof]

theorem C3_witness :
    1 ≤ ([5] : List Nat).length ∧ 0 < 3 ∧ ([5] : List Nat).length - 1 = 0 ∧
    ((readIter [5] 5 1 3 = some ReadResult.wouldBlock ∧
        readLoop [([5], 5)] 1 3 = readLoop [] 1 3) ∧
      (readIter [5] 0 1 3 = some (ReadResult.chunk [] 1) ∧
        readCall [([5], 0)] 1 3 = LoopResult.returned [] 1)) :=
  ⟨by decide, by decide, by decide,
    C3_drained_waits_or_eof [5] 1 3 4 [] (by decide) (by decide) (by decide)⟩

/-- Claim C4: `write` extends the shared byte sequence by exactly its
argument, returns the number of bytes written, and calls `notify_all`
on the readiness signal if and only if at least one byte was written;
as a total function of the prior contents it never waits on consumer
progress. -/
theorem C4_append_grows_and_notifies : ∀ buffer data : List Nat,
    (write buffer data).buffer = buffer ++ data ∧
    (write buffer data).returned = data.length ∧
    ((write buffer data).notified = true ↔ 0 < data.length) := by
  intro buffer data
  refine ⟨rfl, rfl, ?_⟩
  simp [write]

/-- Claim C5: cloning a handle yields a handle whose cursor is 0 and
that shares the same underlying buffer, completion counter and
readiness signal as the original, whatever the original's cursor was;
consequently a consumer spawned with a fresh clone reads from byte 0
and, draining a completed buffer, receives the entire history. -/
theorem C5_clone_restarts_at_zero : ∀ p : BroadcastPipe,
    (clonePipe p).read_pos = 0 ∧
    (clonePipe p).bufferId = p.bufferId ∧
    (clonePipe p).readyId = p.readyId ∧
    (clonePipe p).completeId = p.completeId ∧
    (∀ (buffer : List Nat) (want fuel : Nat), 0 < want →
      buffer.length < fuel →
      copyLoop fuel buffer (clonePipe p).read_pos want = buffer) := by
  intro p
  refine ⟨rfl, rfl, rfl, rfl, ?_⟩
  intro buffer want fuel hw hf
  have h := copyLoop_drain fuel buffer 0 want (Nat.zero_le _) hw (by omega)
  simpa using h

theorem C5_witness :
    0 < 1 ∧ ([10, 20] : List Nat).length < 3 ∧
    copyLoop 3 [10, 20] (clonePipe ⟨4, 5, 6, 7⟩).read_pos 1 = [10, 20] :=
  ⟨by decide, by decide,
    (C5_clone_restarts_at_zero ⟨4, 5, 6, 7⟩).2.2.2.2 [10, 20] 1 3
      (by decide) (by decide)⟩

/-- Claim C6, counterexample: it is not true that in every reachable
execution every producer is registered before any producer can mark
itself done.  With one `--input` file, the stdin producer thread
(spawned at `src/main.rs` line 97, right after its own registration at
line 95) can perform its `fetch_sub` before the main thread registers
the file producer at line 110: the state with one registration and
`stdinDone` is reachable while the file producer is still
unregistered. -/
theorem C6_registration_counterexample :
    ¬ (∀ s : RegState, RegReachable 1 s → s.stdinDone = true →
        s.regs = 1 + 1) := by
  intro hall
  have h0 : RegReachable 1 ⟨0, false, false⟩ := RegReachable.init
  have h1 : RegReachable 1 ⟨1, false, false⟩ :=
    RegReachable.mainRegister _ h0 (by decide) rfl
  have h2 : RegReachable 1 ⟨1, false, true⟩ :=
    RegReachable.stdinFinish _ h1 (by decide) rfl
  exact absurd (hall _ h2 rfl) (by decide)

/-- Claim C6, amended: the buffer reports complete (a drained reader
gets end-of-stream) exactly when the active-producer counter is zero.
The stdin producer may mark itself done before later file producers are
registered, but every registration happens on the main thread before
any consumer is spawned, so in every reachable state in which consumers
exist the counter is zero only when the stdin producer has finished and
no file producers were configured: no consumer ever observes a spurious
premature completion while a configured producer is unregistered. -/
theorem C6_completion_iff_all_done :
    ∀ (numFiles : Nat) (s : RegState), RegReachable numFiles s →
    s.consumersSpawned = true →
    ((activeProducers s = 0 ↔ (s.stdinDone = true ∧ numFiles = 0)) ∧
      ∀ (buffer : List Nat) (want : Nat),
        (readIter buffer (activeProducers s) buffer.length want =
            some (ReadResult.chunk [] buffer.length)) ↔
          activeProducers s = 0) := by
  intro numFiles s hreach hcons
  have hregs : s.regs = numFiles + 1 :=
    regReachable_spawned_regs numFiles s hreach hcons
  constructor
  · unfold activeProducers
    rw [hregs]
    cases hd : s.stdinDone <;> simp
  · intro buffer want
    exact readIter_drained_eof_iff buffer (activeProducers s) want

theorem C6_amended_witness :
    RegReachable 0 ⟨1, true, true⟩ ∧
    (⟨1, true, true⟩ : RegState).consumersSpawned = true ∧
    ((activeProducers ⟨1, true, true⟩ = 0 ↔
        ((⟨1, true, true⟩ : RegState).stdinDone = true ∧ 0 = 0)) ∧
      ∀ (buffer : List Nat) (want : Nat),
        (readIter buffer (activeProducers ⟨1, true, true⟩) buffer.length want =
            some (ReadResult.chunk [] buffer.length)) ↔
          activeProducers ⟨1, true, true⟩ = 0) := by
  have h0 : RegReachable 0 ⟨0, false, false⟩ := RegReachable.init
  have h1 : RegReachable 0 ⟨1, false, false⟩ :=
    RegReachable.mainRegister _ h0 (by decide) rfl
  have h2 : RegReachable 0 ⟨1, true, false⟩ :=
    RegReachable.mainSpawnConsumers _ h1 rfl
  have h3 : RegReachable 0 ⟨1, true, true⟩ :=
    RegReachable.stdinFinish _ h2 (by decide) rfl
  exact ⟨h3, rfl, C6_completion_iff_all_done 0 ⟨1, true, true⟩ h3 rfl⟩

/-- Claim C7 concerns the no-lost-wake property.  The state check of
`BroadcastPipe::read` runs under the buffer lock, which is dropped
before `Notify::wait` is entered, and `Notify::notify_all` does not
acquire the `Mutex` paired with the `Condvar`; so both the notify of a
concurrent append and the final notify of `mark done` can fire in the
window between the check and the wait and be lost.  This theorem
exhibits the resulting execution: the stuck state in which the consumer
sits in `Condvar::wait` with two appended, unread bytes and a completed
stream is reachable, and it has no successor at all, so the consumer
never observes the appended bytes. -/
theorem C7_lost_wake_consumer_stuck :
    WakeReachable ⟨2, 0, CPC.waiting, 2⟩ ∧
    wakeSuccs ⟨2, 0, CPC.waiting, 2⟩ = [] ∧
    0 < WakeState.len ⟨2, 0, CPC.waiting, 2⟩ ∧
    WakeState.active ⟨2, 0, CPC.waiting, 2⟩ = 0 := by
  refine ⟨?_, by decide, by decide, by decide⟩
  have h0 : WakeReachable ⟨0, 1, CPC.idle, 0⟩ := WakeReachable.init
  have h1 : WakeReachable ⟨0, 1, CPC.checked, 0⟩ :=
    WakeReachable.step _ _ h0 (by decide)
  have h2 : WakeReachable ⟨2, 1, CPC.checked, 1⟩ :=
    WakeReachable.step _ _ h1 (by decide)
  have h3 : WakeReachable ⟨2, 0, CPC.checked, 2⟩ :=
    WakeReachable.step _ _ h2 (by decide)
  exact WakeReachable.step _ _ h3 (by decide)

/-- Claim C8: the shared byte sequence is append-only: every operation
leaves the old contents as a prefix of the new contents, and every byte
already written at position `i` is unchanged afterwards. -/
theorem C8_buffer_append_only : ∀ (s : SysState) (op : Op),
    (∃ t : List Nat, (stepOp s op).buffer = s.buffer ++ t) ∧
    (∀ i : Nat, i < s.buffer.length →
      (stepOp s op).buffer[i]? = s.buffer[i]?) := by
  intro s op
  have hpre : ∃ t : List Nat, (stepOp s op).buffer = s.buffer ++ t := by
    cases op with
    | append data => exact ⟨data, rfl⟩
    | flushOp => exact ⟨[], by simp [stepOp, flush]⟩
    | register => exact ⟨[], by simp [stepOp]⟩
    | finish => exact ⟨[], by simp [stepOp]⟩
    | cloneH i =>
      refine ⟨[], ?_⟩
      simp only [stepOp]
      rcases s.handles[i]? with _ | h0 <;> simp
    | readH i want =>
      refine ⟨[], ?_⟩
      simp only [stepOp]
      split
      · split
        · simp
        · split <;> simp
      · simp
  obtain ⟨t, ht⟩ := hpre
  refine ⟨⟨t, ht⟩, ?_⟩
  intro i hi
  rw [ht, List.getElem?_append_left hi]

theorem C8_witness :
    0 < (⟨[7], 1, [⟨0, []⟩]⟩ : SysState).buffer.length ∧
    (stepOp ⟨[7], 1, [⟨0, []⟩]⟩ (Op.append [9])).buffer[0]? =
      (⟨[7], 1, [⟨0, []⟩]⟩ : SysState).buffer[0]? :=
  ⟨by decide,
    (C8_buffer_append_only ⟨[7], 1, [⟨0, []⟩]⟩ (Op.append [9])).2 0 (by decide)⟩

/-- Claim C9: a read request of zero bytes returns immediately with
zero bytes for every buffer state, drawing on no snapshot of the shared
state (so it cannot block on the readiness signal even when the buffer
is incomplete and has no new data), it reports the cursor unchanged,
and as a system operation it is a complete no-op. -/
theorem C9_zero_want_read_is_noop :
    (∀ (snapshots : List (List Nat × Nat)) (read_pos : Nat),
      readCall snapshots read_pos 0 = LoopResult.returned [] read_pos) ∧
    (∀ (s : SysState) (i : Nat), stepOp s (Op.readH i 0) = s) := by
  constructor
  · intro snapshots read_pos
    rfl
  · intro s i
    simp only [stepOp]
    rcases s.handles[i]? with _ | h0 <;> simp

/-- Claim C10: every operation preserves the invariant
`cursor ≤ len(bytes)` for every handle, and under that invariant the
`usize` subtraction and the slice in the read iteration cannot fault:
`readIter` never panics (never returns `none`). -/
theorem C10_cursor_bounded_read_never_panics :
    (∀ (ops : List Op) (h : Handle), h ∈ (runOps ops).handles →
      h.read_pos ≤ (runOps ops).buffer.length) ∧
    (∀ (buffer : List Nat) (complete read_pos want : Nat),
      read_pos ≤ buffer.length →
      readIter buffer complete read_pos want ≠ none) := by
  constructor
  · intro ops h hh
    exact (sysInv_run ops h hh).1
  · intro buffer complete read_pos want hle
    unfold readIter
    rw [if_neg (Nat.not_lt.mpr hle)]
    by_cases hc : min want (buffer.length - read_pos) = 0 ∧ 0 < complete
    · rw [if_pos hc]
      exact Option.some_ne_none _
    · rw [if_neg hc]
      exact Option.some_ne_none _

theorem C10_witness :
    ((⟨2, [1, 2]⟩ : Handle) ∈ (runOps [Op.append [1, 2], Op.readH 0 2]).handles ∧
      2 ≤ (runOps [Op.append [1, 2], Op.readH 0 2]).buffer.length) ∧
    (1 ≤ ([5, 6] : List Nat).length ∧ readIter [5, 6] 3 1 4 ≠ none) :=
  ⟨⟨by decide,
      C10_cursor_bounded_read_never_panics.1 [Op.append [1, 2], Op.readH 0 2]
        ⟨2, [1, 2]⟩ (by decide)⟩,
    ⟨by decide,
      C10_cursor_bounded_read_never_panics.2 [5, 6] 3 1 4 (by decide)⟩⟩
